import Mathlib

/-!
# Shallow embedding of the docpull fetch engine (v2, `src/docpull/...`)

Definitions are transcribed from the Python sources of the repository:
cache/manager.py, cache/streaming_dedup.py, models/profiles.py,
core/fetcher.py, discovery/{sitemap,crawler,composite,filters}.py,
security/{url_validator,robots}.py and http/client.py.  Machine-level
effects (network, disk, clocks, randomness) are made explicit parameters:
server behaviour per attempt, file-system operations as data, jitter as a
function.  SHA-256 itself is kept as an opaque function parameter: none of
the verified properties depend on the hash function, only on how its
results are compared and stored.
-/

set_option maxHeartbeats 1000000

namespace Docpull

/-! ## Generic helpers for Python string operations -/

/-- Python `s.strip(c)` on a list of characters: drop `c` from both ends. -/
def stripCharL (c : Char) (l : List Char) : List Char :=
  ((l.dropWhile (· = c)).reverse.dropWhile (· = c)).reverse

/-- Python `str.strip(ch)` for a single strip character. -/
def stripChar (c : Char) (s : String) : String :=
  (stripCharL c s.data).asString

/-- Replace every occurrence of character `a` by character `b`. -/
def replaceCharL (a b : Char) (l : List Char) : List Char :=
  l.map (fun c => if c = a then b else c)

/-- Replace every occurrence of character `a` by `b` in a string. -/
def replaceChar (a b : Char) (s : String) : String :=
  (replaceCharL a b s.data).asString

/-- Python truthiness of an optional string: `None` and `""` are falsy. -/
def truthy : Option String → Bool
  | none => false
  | some s => s != ""

/-! ## Cache manager (`cache/manager.py`)

`ManifestEntry` is a `TypedDict` with all keys optional; we model it with
`Option` fields, `none` meaning the key is absent (`"etag" in cached` is
`isSome`). -/

structure ManifestEntry where
  checksum : Option String := none
  filePath : Option String := none
  fetchedAt : Option String := none
  size : Option Nat := none
  etag : Option String := none
  lastModified : Option String := none
deriving Repr, DecidableEq

/-- `CacheManager.has_changed` (cache/manager.py lines 187-224), transcribed
branch for branch.  `sha` stands for `compute_checksum` = SHA-256 hex of the
UTF-8 bytes; the manifest is the URL-to-entry map as an association list.
Python `if etag and "etag" in cached` tests truthiness of the argument and
key presence in the entry. -/
def hasChanged (sha : String → String) (manifest : List (String × ManifestEntry))
    (url : String) (content etag lastModified : Option String) : Bool :=
  match manifest.lookup url with
  | none => true
  | some cached =>
    if truthy etag && cached.etag.isSome then
      etag.getD "" != cached.etag.getD ""
    else if truthy lastModified && cached.lastModified.isSome then
      lastModified.getD "" != cached.lastModified.getD ""
    else if truthy content && cached.checksum.isSome then
      sha (content.getD "") != cached.checksum.getD ""
    else
      true

/-- The decision procedure exactly as the specification sentence describes
`has_changed`: unknown URL is changed; else compare ETag when both sides
have one, else Last-Modified when both sides have one, else the SHA-256 of
the supplied content against a cached checksum, else changed.  "The
argument has an ETag" means a nonempty string was supplied (HTTP header
values are nonempty; this is Python truthiness); "the cached entry has an
ETag" means the manifest entry holds the key. -/
def hasChangedSpec (sha : String → String) (manifest : List (String × ManifestEntry))
    (url : String) (content etag lastModified : Option String) : Bool :=
  match manifest.lookup url with
  | none => true
  | some cached =>
    match etag, cached.etag with
    | some e, some ce =>
      if e = "" then hasChangedRest sha cached content lastModified else e != ce
    | _, _ => hasChangedRest sha cached content lastModified
where
  /-- Priority chain after the ETag comparison fails to apply. -/
  hasChangedRest (sha : String → String) (cached : ManifestEntry)
      (content lastModified : Option String) : Bool :=
    match lastModified, cached.lastModified with
    | some lm, some clm =>
      if lm = "" then hasChangedContent sha cached content else lm != clm
    | _, _ => hasChangedContent sha cached content
  /-- Final checksum comparison, else "treat as changed". -/
  hasChangedContent (sha : String → String) (cached : ManifestEntry)
      (content : Option String) : Bool :=
    match content, cached.checksum with
    | some c, some chk => if c = "" then true else sha c != chk
    | _, _ => true

/-! ### The `CacheManager` class surface (for the resume-support claim)

`cacheManagerMethods` transcribes the names bound in the class body of
`CacheManager` (cache/manager.py lines 61-389).  Python attribute lookup on
an instance succeeds for exactly these (plus instance fields); calling a
missing one raises `AttributeError`. -/

def cacheManagerMethods : List String :=
  ["__init__", "_load_manifest", "_save_manifest", "_load_state", "_save_state",
   "flush", "__enter__", "__exit__", "compute_checksum", "has_changed",
   "update_cache", "mark_fetched", "mark_failed", "get_fetched_urls",
   "get_failed_urls", "start_session", "clear_state", "get_cache_stats",
   "evict_expired", "is_fetched", "is_failed"]

/-- The method names `Fetcher.run` (core/fetcher.py lines 441-576) invokes on
`self._cache_manager` when caching is enabled: `get_pending_urls` when resume
is on (line 453), `save_discovered_urls` after discovery (line 487),
`mark_failed`/`update_cache`/`mark_fetched` per page (lines 552-569), and
`clear_discovered_urls` on completion with zero failures (line 576). -/
def fetcherRunCacheMethodCalls : List String :=
  ["get_pending_urls", "save_discovered_urls", "mark_failed", "update_cache",
   "mark_fetched", "clear_discovered_urls"]

/-- The three operations the specification says the cache exposes for resume
support. -/
def resumeSupportMethods : List String :=
  ["save_discovered_urls", "get_pending_urls", "clear_discovered_urls"]

/-! ### `flush` as file-system operations (for the atomicity claim)

`_save_manifest` (lines 108-117) and `_save_state` (lines 139-149) each
`open(file, "w")` and `json.dump` into it when the corresponding dirty flag
is set - a single in-place write that first truncates the target.  `flush`
(lines 151-158) runs both.  We record the operation sequence as data. -/

inductive FsOp where
  | write (path : String) (content : String)
  | rename (src : String) (dst : String)
deriving Repr, DecidableEq

/-- File-system operations performed by `CacheManager._save_manifest`. -/
def saveManifestOps (manifestDirty : Bool) (manifestJson : String) : List FsOp :=
  if manifestDirty then [FsOp.write "manifest.json" manifestJson] else []

/-- File-system operations performed by `CacheManager._save_state`. -/
def saveStateOps (stateDirty : Bool) (stateJson : String) : List FsOp :=
  if stateDirty then [FsOp.write "state.json" stateJson] else []

/-- File-system operations performed by `CacheManager.flush`. -/
def flushOps (manifestDirty stateDirty : Bool) (manifestJson stateJson : String) :
    List FsOp :=
  saveManifestOps manifestDirty manifestJson ++ saveStateOps stateDirty stateJson

/-- The write-temp-then-rename discipline the specification claims for a
target file: the new content is written to a temporary path and renamed over
the target, and the target path itself is never opened for writing. -/
def atomicReplace (ops : List FsOp) (target : String) : Prop :=
  (∃ tmp c, tmp ≠ target ∧ FsOp.write tmp c ∈ ops ∧ FsOp.rename tmp target ∈ ops) ∧
  ∀ c, FsOp.write target c ∉ ops

/-- Observable on-disk contents of the target while a single in-place
`open(path, "w"); write(new)` executes: the open truncates, then the data
arrives in order, so any proper stage shows a proper prefix of `new`.
`k` is the number of characters already written. -/
def inPlaceWriteStage (newContent : String) (k : Nat) : String :=
  (newContent.data.take k).asString

/-! ## Streaming deduplicator (`cache/streaming_dedup.py`)

`check_and_register` runs under one lock, so a run is a sequence of calls;
`hash` stands for `compute_hash` (SHA-256 hex of the UTF-8 bytes).  The
`_seen` dict maps content hash to the first URL registered with that hash;
Python dict insertion appends a new key. -/

structure DedupState where
  seen : List (String × String)
  totalChecked : Nat
  duplicatesFound : Nat
deriving Repr, DecidableEq

/-- Fresh deduplicator state (`StreamingDeduplicator.__init__` / `clear`). -/
def dedupInit : DedupState := ⟨[], 0, 0⟩

/-- `StreamingDeduplicator.check_and_register` (lines 60-91): returns
`(should_save, duplicate_of)` and the updated state. -/
def checkAndRegister (hash : String → String) (st : DedupState)
    (url content : String) : (Bool × Option String) × DedupState :=
  let h := hash content
  match st.seen.lookup h with
  | some first =>
    ((false, some first),
     { st with totalChecked := st.totalChecked + 1,
               duplicatesFound := st.duplicatesFound + 1 })
  | none =>
    ((true, none),
     { st with totalChecked := st.totalChecked + 1,
               seen := st.seen ++ [(h, url)] })

/-- Result of one registration step, state only. -/
def dedupStep (hash : String → String) (st : DedupState) (call : String × String) :
    DedupState :=
  (checkAndRegister hash st call.1 call.2).2

/-- Run a sequence of `check_and_register` calls `(url, content)` from a given
state, collecting the `(should_save, duplicate_of)` results in order. -/
def dedupRun (hash : String → String) (st : DedupState) :
    List (String × String) → List (Bool × Option String)
  | [] => []
  | call :: rest =>
    let r := checkAndRegister hash st call.1 call.2
    r.1 :: dedupRun hash r.2 rest

/-! ## Configuration profiles (`models/profiles.py`)

`apply_profile` serializes the whole configuration with `model_dump()` and
merges the profile's override dict into it with `deep_update`, then
re-validates.  We model the JSON-like dicts and `deep_update` exactly; the
values reachable here are the `model_dump` scalars and nested section
dicts. -/

inductive JVal where
  | num (n : Int)
  | str (s : String)
  | boolean (b : Bool)
  | null
  | obj (fields : List (String × JVal))

/-- Python dict assignment `result[key] = v` on an insertion-ordered dict:
replace in place when the key exists, append otherwise. -/
def setKey : List (String × JVal) → String → JVal → List (String × JVal)
  | [], k, v => [(k, v)]
  | (k', v') :: rest, k, v =>
    if k' = k then (k', v) :: rest else (k', v') :: setKey rest k v

mutual

/-- The per-key update of `deep_update` (models/profiles.py lines 87-99): when
the key is present in the base and both sides are dicts, merge recursively;
otherwise the override value replaces whatever was there. -/
def deepUpdateVal : Option JVal → JVal → JVal
  | some (JVal.obj baseFields), JVal.obj ovFields =>
    JVal.obj (deepUpdateFields baseFields ovFields)
  | _, ov => ov

/-- `deep_update(base, overrides)`: fold the override entries into a copy of
the base dict. -/
def deepUpdateFields (base : List (String × JVal)) :
    List (String × JVal) → List (String × JVal)
  | [] => base
  | (k, ov) :: rest =>
    deepUpdateFields (setKey base k (deepUpdateVal (base.lookup k) ov)) rest

end

/-- Profile names (`models/config.py`). -/
inductive ProfileName where
  | rag
  | mirror
  | quick
  | custom
deriving Repr, DecidableEq

/-- The `PROFILES` table (models/profiles.py lines 9-53) as override dicts. -/
def PROFILES : ProfileName → List (String × JVal)
  | ProfileName.rag =>
    [("content_filter", JVal.obj
        [("language", JVal.str "en"),
         ("deduplicate", JVal.boolean true),
         ("streaming_dedup", JVal.boolean true)]),
     ("output", JVal.obj
        [("create_index", JVal.boolean true),
         ("rich_metadata", JVal.boolean true)]),
     ("crawl", JVal.obj [("max_concurrent", JVal.num 20)])]
  | ProfileName.mirror =>
    [("crawl", JVal.obj
        [("max_depth", JVal.num 10),
         ("max_concurrent", JVal.num 5)]),
     ("content_filter", JVal.obj [("deduplicate", JVal.boolean false)]),
     ("output", JVal.obj [("naming_strategy", JVal.str "hierarchical")]),
     ("cache", JVal.obj
        [("enabled", JVal.boolean true),
         ("skip_unchanged", JVal.boolean true)])]
  | ProfileName.quick =>
    [("crawl", JVal.obj
        [("max_pages", JVal.num 50),
         ("max_depth", JVal.num 2),
         ("max_concurrent", JVal.num 20)])]
  | ProfileName.custom => []

/-- `apply_profile` (models/profiles.py lines 56-103) at the dict level:
`custom` and empty override tables return the config unchanged; otherwise the
profile overrides are deep-merged into the full `model_dump` of the
user-constructed config (so the overrides land on top of every field,
user-set or defaulted). -/
def applyProfileDict (profile : ProfileName) (configDump : List (String × JVal)) :
    List (String × JVal) :=
  match profile with
  | ProfileName.custom => configDump
  | p =>
    if (PROFILES p).isEmpty then configDump
    else deepUpdateFields configDump (PROFILES p)

/-- Look a two-level path up in a dumped config dict. -/
def lookupPath2 (d : List (String × JVal)) (group field : String) : Option JVal :=
  match d.lookup group with
  | some (JVal.obj fields) => fields.lookup field
  | _ => none

/-! ## Output-path computation (`core/fetcher.py` lines 38-73 and 393-405)

`_url_to_filename` starts from `urlparse(url)`; we model the parsed URL as a
record with the fields `urlparse` exposes, and the character classes of
Python's regexes over the ASCII range the repository's URLs use
(`\w` = letters, digits and underscore). -/

structure ParsedUrl where
  scheme : String
  netloc : String
  path : String
  query : String := ""
deriving Repr, DecidableEq

/-- Python `\w` on ASCII: letter, digit or underscore. -/
def isWordChar (c : Char) : Bool :=
  (('a' ≤ c && c ≤ 'z') || ('A' ≤ c && c ≤ 'Z') || ('0' ≤ c && c ≤ '9') || c = '_')

/-- `re.sub(r"[^\w\-]", "_", s)`: every character outside `[\w-]` becomes an
underscore. -/
def subNonWordL (l : List Char) : List Char :=
  l.map (fun c => if isWordChar c || c = '-' then c else '_')

/-- `re.sub(r"_+", "_", s)`: collapse runs of underscores. -/
def collapseUnderscoresL : List Char → List Char
  | [] => []
  | '_' :: rest =>
    match collapseUnderscoresL rest with
    | '_' :: tail => '_' :: tail
    | tail => '_' :: tail
  | c :: rest => c :: collapseUnderscoresL rest

/-- Python `a.startswith(b)` on character lists. -/
def startsWithL : List Char → List Char → Bool
  | _, [] => true
  | [], _ :: _ => false
  | c :: cs, d :: ds => c = d && startsWithL cs ds

/-- Python `s.endswith(suf)` on character lists. -/
def endsWithL (l suf : List Char) : Bool :=
  startsWithL l.reverse suf.reverse

/-- `_url_to_filename(url, base_url)` (core/fetcher.py lines 38-73) on the
parsed path: strip slashes; when a base URL is given and its stripped path is
a prefix, drop that prefix and strip slashes again; empty path becomes
`index`, otherwise slashes become underscores and a trailing `.html`/`.htm`
is removed; finally non-word characters become underscores, runs collapse,
and edge underscores are stripped; `.md` is appended. -/
def urlToFilename (u : ParsedUrl) (base : Option ParsedUrl) : String :=
  let path0 := stripCharL '/' u.path.data
  let path :=
    match base with
    | none => path0
    | some b =>
      let basePath := stripCharL '/' b.path.data
      if startsWithL path0 basePath then
        stripCharL '/' (path0.drop basePath.length)
      else path0
  let filename :=
    if path = [] ∨ path = ['/'] then "index".data
    else
      let f := replaceCharL '/' '_' path
      if endsWithL f ".html".data then f.take (f.length - 5)
      else if endsWithL f ".htm".data then f.take (f.length - 4)
      else f
  let cleaned := stripCharL '_' (collapseUnderscoresL (subNonWordL filename))
  cleaned.asString ++ ".md"

/-- `Fetcher._compute_output_path` (core/fetcher.py lines 393-405): the
resolved output directory joined with `_url_to_filename(url, config.url)`.
No naming-strategy dispatch and no per-host subdirectory appear in the
computation. -/
def computeOutputPath (outputDir : String) (u : ParsedUrl)
    (base : Option ParsedUrl) : String :=
  outputDir ++ "/" ++ urlToFilename u base

/-- The `full` naming strategy as the specification describes it:
`<output_dir>/<host_with_dots_as_underscores>/<path_with_slashes_as_underscores>.md`. -/
def fullStrategyPath (outputDir : String) (u : ParsedUrl) : String :=
  outputDir ++ "/" ++ replaceChar '.' '_' u.netloc ++ "/" ++
    (replaceCharL '/' '_' (stripCharL '/' u.path.data)).asString ++ ".md"

/-! ## HTTP client retry loop (`http/client.py`)

`AsyncHttpClient.get` (lines 183-295) loops `for attempt in
range(max_retries + 1)`.  The behaviour of each attempt is an `Outcome`
supplied by the environment: a retryable exception (`aiohttp.ClientError`,
`asyncio.TimeoutError`, `ConnectionError`), a non-retryable exception, or a
response with a status code and a body size.  Jitter (`random.uniform(0, 1)`)
is a function of the attempt index.  On the last attempt a retryable status
triggers `response.raise_for_status()`, which raises
`ClientResponseError` (a `ClientError`); the surrounding handler re-raises it
because no attempts remain. -/

inductive Outcome where
  | retryableExc
  | fatalExc
  | resp (status : Nat) (size : Nat)
deriving Repr, DecidableEq

/-- `AsyncHttpClient.RETRYABLE_STATUS_CODES` (http/client.py line 50). -/
def RETRYABLE_STATUS_CODES : List Nat := [429, 500, 502, 503, 504]

inductive GetError where
  | statusError (status : Nat)
  | excError
  | fatal
  | tooLarge
deriving Repr, DecidableEq

/-- Result of a `get` call: the returned status (or the raised error), the
number of tries performed, and the backoff delays slept between tries. -/
structure GetTrace where
  result : Except GetError Nat
  tries : Nat
  waits : List ℚ
deriving Repr

/-- `_calculate_retry_delay` (http/client.py lines 121-134):
`base * 2 ^ attempt + uniform(0, 1)`. -/
def retryDelay (base : ℚ) (jitter : Nat → ℚ) (attempt : Nat) : ℚ :=
  base * 2 ^ attempt + jitter attempt

/-- One unwinding of the retry loop of `AsyncHttpClient.get`, starting at
`attempt`; `fuel` is the number of loop iterations still allowed by
`range(max_retries + 1)` and equals `maxRetries + 1 - attempt` at every
call.  Retryable statuses retry while `attempt < max_retries` and raise via
`raise_for_status` on the last attempt; retryable exceptions retry the same
way and re-raise on the last attempt; other exceptions re-raise at once;
responses larger than `max_content_size` raise `ValueError`; any other
response is returned as-is. -/
def getGo (out : Nat → Outcome) (maxRetries : Nat) (base : ℚ) (jitter : Nat → ℚ)
    (maxSize : Nat) : Nat → Nat → GetTrace
  | _, 0 => ⟨Except.error GetError.excError, 0, []⟩
  | attempt, fuel + 1 =>
    match out attempt with
    | Outcome.fatalExc => ⟨Except.error GetError.fatal, 1, []⟩
    | Outcome.retryableExc =>
      if attempt < maxRetries then
        let rest := getGo out maxRetries base jitter maxSize (attempt + 1) fuel
        ⟨rest.result, rest.tries + 1, retryDelay base jitter attempt :: rest.waits⟩
      else ⟨Except.error GetError.excError, 1, []⟩
    | Outcome.resp status size =>
      if status ∈ RETRYABLE_STATUS_CODES then
        if attempt < maxRetries then
          let rest := getGo out maxRetries base jitter maxSize (attempt + 1) fuel
          ⟨rest.result, rest.tries + 1, retryDelay base jitter attempt :: rest.waits⟩
        else ⟨Except.error (GetError.statusError status), 1, []⟩
      else if maxSize < size then ⟨Except.error GetError.tooLarge, 1, []⟩
      else ⟨Except.ok status, 1, []⟩

/-- `AsyncHttpClient.get`: run the retry loop from attempt 0.  The loop body
executes at most `max_retries + 1` times. -/
def get (out : Nat → Outcome) (maxRetries : Nat) (base : ℚ) (jitter : Nat → ℚ)
    (maxSize : Nat) : GetTrace :=
  getGo out maxRetries base jitter maxSize 0 (maxRetries + 1)

/-! ## Discovery (`discovery/sitemap.py`, `discovery/crawler.py`,
`discovery/composite.py`)

The network and the gates are an explicit `DiscoveryWorld`:
`validator` is `UrlValidator.is_valid`, `robots` is
`RobotsChecker.is_allowed`, `domainOk`/`patternOk` are the
`DomainFilter`/`PatternFilter` verdicts (constantly true when the filter is
absent), `fetchParse url` is the combined result of
`SitemapDiscoverer._fetch_sitemap` + `_parse_sitemap` (`none` when the fetch
fails or returns non-200; otherwise the page URLs and nested sitemap URLs),
`links url` is the link list the crawler extracts from a fetched page, and
`normalize` is `normalize_url` used by `SeenUrlTracker`. -/

structure DiscoveryWorld where
  validator : String → Bool
  robots : String → Bool
  domainOk : String → Bool
  patternOk : String → Bool
  fetchParse : String → Option (List String × List String)
  links : String → List String
  normalize : String → String

/-- `SeenUrlTracker.add`: normalize, report whether the URL was new, record
it.  The tracker state is the list of normalized keys. -/
def seenAdd (w : DiscoveryWorld) (seen : List String) (url : String) :
    Bool × List String :=
  let key := w.normalize url
  if key ∈ seen then (false, seen) else (true, key :: seen)

/-- `SitemapDiscoverer._fetch_sitemap` validates the sitemap URL itself
before fetching (sitemap.py line 91). -/
def fetchSitemap (w : DiscoveryWorld) (url : String) :
    Option (List String × List String) :=
  if w.validator url then w.fetchParse url else none

/-- The page-URL loop of `_discover_from_sitemap` (sitemap.py lines 183-202):
for each `<loc>`, stop when the cap is reached, then filter through the URL
validator, the pattern filter and the seen-set; survivors are yielded.
Returns the yields, the yield count and the updated seen-set. -/
def sitemapPageLoop (w : DiscoveryWorld) (maxUrls : Option Nat) :
    List String → Nat → List String → List String × Nat × List String
  | [], count, seen => ([], count, seen)
  | url :: rest, count, seen =>
    if maxUrls.elim false (fun m => m ≤ count) then ([], count, seen)
    else if !w.validator url then sitemapPageLoop w maxUrls rest count seen
    else if !w.patternOk url then sitemapPageLoop w maxUrls rest count seen
    else
      match seenAdd w seen url with
      | (false, seen') => sitemapPageLoop w maxUrls rest count seen'
      | (true, seen') =>
        let r := sitemapPageLoop w maxUrls rest (count + 1) seen'
        (url :: r.1, r.2.1, r.2.2)

/-- The nested-sitemap loop of `_discover_from_sitemap` (sitemap.py lines
204-215), generic in the recursive call `child` (the descent one level
deeper): visit nested sitemaps while `remaining` permits, decrementing
`remaining` per nested yield and stopping early when it reaches zero. -/
def sitemapNestedLoop
    (child : String → Option Nat → List String → List String × List String) :
    List String → Option Nat → List String → List String × List String
  | [], _, seen => ([], seen)
  | nestedUrl :: rest, remaining, seen =>
    if remaining.elim false (fun r => r = 0) then ([], seen)
    else
      let c := child nestedUrl remaining seen
      let yielded := remaining.elim c.1 (fun r => c.1.take r)
      let remaining' := remaining.map (fun r => r - yielded.length)
      if remaining'.elim false (fun r => r = 0) then (yielded, c.2)
      else
        let n := sitemapNestedLoop child rest remaining' c.2
        (yielded ++ n.1, n.2)

/-- `_discover_from_sitemap` (sitemap.py lines 151-215): depth-guarded
recursive descent.  `gas` is `MAX_SITEMAP_DEPTH + 1 - depth`, so the Python
guard `depth > MAX_SITEMAP_DEPTH` is `gas = 0`.  After the page loop, nested
sitemaps are visited one level deeper with `remaining = max_urls - count`. -/
def discoverFromSitemap (w : DiscoveryWorld) :
    Nat → String → Option Nat → List String → List String × List String
  | 0 => fun _ _ seen => ([], seen)
  | gas + 1 => fun sitemapUrl maxUrls seen =>
    match fetchSitemap w sitemapUrl with
    | none => ([], seen)
    | some (pageUrls, nestedUrls) =>
      let r := sitemapPageLoop w maxUrls pageUrls 0 seen
      let remaining := maxUrls.map (fun m => m - r.2.1)
      let n := sitemapNestedLoop (discoverFromSitemap w gas) nestedUrls remaining r.2.2
      (r.1 ++ n.1, n.2)

/-- `SitemapDiscoverer.MAX_SITEMAP_DEPTH` (sitemap.py line 40). -/
def MAX_SITEMAP_DEPTH : Nat := 5

/-- `_guess_sitemap_urls` (sitemap.py lines 61-79) given the seed's
`scheme://netloc`. -/
def guessSitemapUrls (schemeHost : String) : List String :=
  [schemeHost ++ "/sitemap.xml",
   schemeHost ++ "/sitemap_index.xml",
   schemeHost ++ "/sitemap/sitemap.xml",
   schemeHost ++ "/sitemaps/sitemap.xml"]

/-- The guess loop of `SitemapDiscoverer.discover` (sitemap.py lines
246-255): each candidate sitemap runs with `remaining = max_urls - count`,
and the overall loop stops once `count >= max_urls`. -/
def sitemapGuessLoop (w : DiscoveryWorld) (maxUrls : Option Nat) :
    List String → Nat → List String → List String
  | [], _, _ => []
  | g :: rest, count, seen =>
    let remaining := maxUrls.map (fun m => m - count)
    let child := discoverFromSitemap w (MAX_SITEMAP_DEPTH + 1) g remaining seen
    let yielded := maxUrls.elim child.1 (fun m => child.1.take (m - count))
    if maxUrls.elim false (fun m => m ≤ count + yielded.length) then yielded
    else yielded ++ sitemapGuessLoop w maxUrls rest (count + yielded.length) child.2

/-- `SitemapDiscoverer.discover` (sitemap.py lines 217-258): a `.xml` seed is
treated as a sitemap directly; otherwise the four guessed locations are
tried in order, sharing one seen-set.  `seedSchemeHost` is
`{scheme}://{netloc}` of the seed as `_guess_sitemap_urls` computes it. -/
def sitemapDiscover (w : DiscoveryWorld) (seed : String) (seedSchemeHost : String)
    (maxUrls : Option Nat) : List String :=
  if endsWithL seed.data ".xml".data then
    (discoverFromSitemap w (MAX_SITEMAP_DEPTH + 1) seed maxUrls []).1
  else
    sitemapGuessLoop w maxUrls (guessSitemapUrls seedSchemeHost) 0 []

/-- `LinkCrawler._should_crawl` (crawler.py lines 142-165): security
validation, then robots.txt, then the domain filter, then the pattern
filter. -/
def shouldCrawl (w : DiscoveryWorld) (url : String) : Bool :=
  w.validator url && w.robots url && w.domainOk url && w.patternOk url

/-- The link loop of `LinkCrawler.discover` (crawler.py lines 233-251): for
each extracted link, the seen-set, then `_should_crawl`; survivors are
yielded, counted against `max_urls`, and enqueued for depth `d + 1` when
that is still below the depth limit.  Returns
`(yields, seen, count, queue additions, hit-the-cap)`. -/
def crawlLinkLoop (w : DiscoveryWorld) (depth maxDepth : Nat) (maxUrls : Option Nat) :
    List String → List String → Nat → List (String × Nat) →
    List String × List String × Nat × List (String × Nat) × Bool
  | [], seen, count, qAdd => ([], seen, count, qAdd, false)
  | link :: rest, seen, count, qAdd =>
    match seenAdd w seen link with
    | (false, seen') => crawlLinkLoop w depth maxDepth maxUrls rest seen' count qAdd
    | (true, seen') =>
      if !shouldCrawl w link then
        crawlLinkLoop w depth maxDepth maxUrls rest seen' count qAdd
      else if maxUrls.elim false (fun m => m ≤ count + 1) then
        ([link], seen', count + 1, qAdd, true)
      else
        let qAdd' := if depth + 1 < maxDepth then qAdd ++ [(link, depth + 1)] else qAdd
        let r := crawlLinkLoop w depth maxDepth maxUrls rest seen' (count + 1) qAdd'
        (link :: r.1, r.2.1, r.2.2.1, r.2.2.2.1, r.2.2.2.2)

/-- The BFS loop of `LinkCrawler.discover` (crawler.py lines 213-253).
`fuel` bounds the number of dequeue steps; the yields of any fuelled run are
a prefix of the unbounded loop's yields, which is all the verified
safety properties need. -/
def crawlLoop (w : DiscoveryWorld) (maxDepth : Nat) (maxUrls : Option Nat) :
    Nat → List (String × Nat) → List String → Nat → List String
  | 0, _, _, _ => []
  | _ + 1, [], _, _ => []
  | fuel + 1, (url, depth) :: queue, seen, count =>
    if maxDepth ≤ depth then crawlLoop w maxDepth maxUrls fuel queue seen count
    else
      let r := crawlLinkLoop w depth maxDepth maxUrls (w.links url) seen count []
      if r.2.2.2.2 then r.1
      else r.1 ++ crawlLoop w maxDepth maxUrls fuel (queue ++ r.2.2.2.1) r.2.1 r.2.2.1

/-- `LinkCrawler.discover` (crawler.py lines 167-253): clear the seen-set,
seed it with the start URL, yield the start URL first when `_should_crawl`
accepts it (returning immediately if that already meets `max_urls`), then
run the breadth-first loop from depth 0. -/
def crawlerDiscover (w : DiscoveryWorld) (seed : String) (maxUrls : Option Nat)
    (maxDepth fuel : Nat) : List String :=
  let seen0 := [w.normalize seed]
  if shouldCrawl w seed then
    if maxUrls.elim false (fun m => m ≤ 1) then [seed]
    else seed :: crawlLoop w maxDepth maxUrls fuel [(seed, 0)] seen0 1
  else crawlLoop w maxDepth maxUrls fuel [(seed, 0)] seen0 0

/-- `CompositeDiscoverer`'s fallback threshold as `Fetcher.__aenter__` wires
it (core/fetcher.py line 329). -/
def FALLBACK_THRESHOLD : Nat := 5

/-- Either phase of `CompositeDiscoverer.discover` (composite.py lines
84-94 and 117-125): drain a source, dedupe against the run-wide seen-set,
count, and stop once `count >= max_urls`.  Returns
`(yields, seen, count, stopped-at-cap)`. -/
def compositePhase (w : DiscoveryWorld) (maxUrls : Option Nat) :
    List String → List String → Nat → List String × List String × Nat × Bool
  | [], seen, count => ([], seen, count, false)
  | url :: rest, seen, count =>
    match seenAdd w seen url with
    | (false, seen') => compositePhase w maxUrls rest seen' count
    | (true, seen') =>
      if maxUrls.elim false (fun m => m ≤ count + 1) then
        ([url], seen', count + 1, true)
      else
        let r := compositePhase w maxUrls rest seen' (count + 1)
        (url :: r.1, r.2.1, r.2.2.1, r.2.2.2)

/-- `CompositeDiscoverer.discover` (composite.py lines 56-127): drain the
sitemap discoverer first; if a crawler is configured and the sitemap phase
yielded fewer than the fallback threshold, run the crawler from the seed
with `remaining = max_urls - count`, deduplicated against the same seen-set,
until the cap is reached or the crawler exhausts. -/
def compositeDiscover (w : DiscoveryWorld) (seed : String) (seedSchemeHost : String)
    (maxUrls : Option Nat) (crawlMaxDepth fuel : Nat) (hasCrawler : Bool) :
    List String :=
  let sm := sitemapDiscover w seed seedSchemeHost maxUrls
  let p1 := compositePhase w maxUrls sm [] 0
  if p1.2.2.2 then p1.1
  else if !hasCrawler then p1.1
  else if FALLBACK_THRESHOLD ≤ p1.2.2.1 then p1.1
  else
    let remaining := maxUrls.map (fun m => m - p1.2.2.1)
    let cr := crawlerDiscover w seed remaining crawlMaxDepth fuel
    let p2 := compositePhase w maxUrls cr p1.2.1 p1.2.2.1
    p1.1 ++ p2.1

/-! ## Fixtures and small predicates used by the theorems -/

/-- Is a file-system operation a direct write (as opposed to a rename)? -/
def isWriteOp : FsOp → Bool
  | FsOp.write _ _ => true
  | FsOp.rename _ _ => false

/-- An attempt outcome on which `AsyncHttpClient.get` retries: a retryable
exception or a response whose status is in `RETRYABLE_STATUS_CODES`. -/
def retriedOutcome : Outcome → Prop
  | Outcome.retryableExc => True
  | Outcome.fatalExc => False
  | Outcome.resp status _ => status ∈ RETRYABLE_STATUS_CODES

instance : DecidablePred retriedOutcome := by
  intro o
  cases o <;> simp only [retriedOutcome] <;> infer_instance

/-- A user-constructed configuration dump: the caller chose the `quick`
profile but explicitly set `crawl.max_pages = 100` (the other fields are
pydantic defaults).  This is `config.model_dump()` as `apply_profile`
consumes it. -/
def userQuickDump : List (String × JVal) :=
  [("profile", JVal.str "quick"),
   ("url", JVal.str "https://example.com"),
   ("crawl", JVal.obj
      [("max_pages", JVal.num 100), ("max_depth", JVal.num 5),
       ("max_concurrent", JVal.num 10), ("rate_limit", JVal.num 1)]),
   ("output", JVal.obj [("format", JVal.str "markdown")])]

/-- A discovery environment with every gate open, no sitemap anywhere and no
links on any page. -/
def openWorld : DiscoveryWorld :=
  { validator := fun _ => true
    robots := fun _ => true
    domainOk := fun _ => true
    patternOk := fun _ => true
    fetchParse := fun _ => none
    links := fun _ => []
    normalize := fun u => u }

/-- A discovery environment whose `/sitemap.xml` lists five pages, one of
which (`/b`) the robots gate disallows; the validator accepts everything. -/
def robotsWorld : DiscoveryWorld :=
  { validator := fun _ => true
    robots := fun u => u != "https://example.com/b"
    domainOk := fun _ => true
    patternOk := fun _ => true
    fetchParse := fun u =>
      if u = "https://example.com/sitemap.xml" then
        some (["https://example.com/a1", "https://example.com/a2",
               "https://example.com/a3", "https://example.com/a4",
               "https://example.com/b"], [])
      else none
    links := fun _ => []
    normalize := fun u => u }

/-- Server behaviour: 404 on the first attempt (anything later is never
reached). -/
def serverNotFound : Nat → Outcome :=
  fun i => if i = 0 then Outcome.resp 404 10 else Outcome.resp 200 10

/-- Server behaviour: 503 on every attempt. -/
def serverAlwaysBusy : Nat → Outcome := fun _ => Outcome.resp 503 10

end Docpull

namespace Docpull

/-! # Theorems -/

/-! ## C1 - resume operations on the cache -/

/-- **C1** (code bug).  The specification says the cache exposes
`save_discovered_urls` / `get_pending_urls` / `clear_discovered_urls` and
that a run with caching on calls them successfully.  `Fetcher.run` does call
all three on its `CacheManager` (they are in `fetcherRunCacheMethodCalls`),
but none of them is defined on the `CacheManager` class, so each call raises
`AttributeError` instead of succeeding: the first run with caching enabled
dies at `save_discovered_urls` right after discovery. -/
theorem C1_resume_methods_missing :
    ("save_discovered_urls" ∈ fetcherRunCacheMethodCalls ∧
      "save_discovered_urls" ∉ cacheManagerMethods) ∧
    ("get_pending_urls" ∈ fetcherRunCacheMethodCalls ∧
      "get_pending_urls" ∉ cacheManagerMethods) ∧
    ("clear_discovered_urls" ∈ fetcherRunCacheMethodCalls ∧
      "clear_discovered_urls" ∉ cacheManagerMethods) ∧
    resumeSupportMethods.all (fun m => !cacheManagerMethods.contains m) = true := by
  refine ⟨⟨?_, ?_⟩, ⟨?_, ?_⟩, ⟨?_, ?_⟩, ?_⟩ <;> decide

/-! ## C2 - profile application order -/

/-- **C2** (code bug).  The specification (and the docstring of
`apply_profile` itself) says profiles are applied before user values so user
values win.  The implementation merges the profile overrides *into the full
`model_dump()` of the user's config*, so the profile wins: a caller who set
`crawl.max_pages = 100` and chose the `quick` profile ends up with
`max_pages = 50`. -/
theorem C2_profile_overrides_user_value :
    lookupPath2 userQuickDump "crawl" "max_pages" = some (JVal.num 100) ∧
    lookupPath2 (applyProfileDict ProfileName.quick userQuickDump)
        "crawl" "max_pages" = some (JVal.num 50) ∧
    lookupPath2 (applyProfileDict ProfileName.quick userQuickDump)
        "crawl" "max_pages" ≠ some (JVal.num 100) := by
  refine ⟨rfl, rfl, ?_⟩
  intro h
  simp only [lookupPath2] at h
  exact absurd (Option.some.inj h) (by intro hv; cases hv)

/-! ## C4 - output-path computation -/

/-- **C4 counterexample**.  For `https://example.com/guide/intro` with output
directory `docs`, the orchestrator computes `docs/guide_intro.md`, while the
claimed `full` naming strategy would give `docs/example_com/guide_intro.md`:
there is no per-host directory and no strategy dispatch. -/
theorem C4_counterexample :
    computeOutputPath "docs" ⟨"https", "example.com", "/guide/intro", ""⟩ none =
      "docs/guide_intro.md" ∧
    fullStrategyPath "docs" ⟨"https", "example.com", "/guide/intro", ""⟩ =
      "docs/example_com/guide_intro.md" ∧
    computeOutputPath "docs" ⟨"https", "example.com", "/guide/intro", ""⟩ none ≠
      fullStrategyPath "docs" ⟨"https", "example.com", "/guide/intro", ""⟩ := by
  refine ⟨rfl, rfl, ?_⟩
  decide

/-- **C4 amended**.  The orchestrator computes every output path as the output
directory joined directly with `_url_to_filename(url, config.url)` - the
sanitized URL path with slashes as underscores and `.md` appended - with no
naming-strategy dispatch and no host component: the host of the URL never
influences the result. -/
theorem C4_output_path_ignores_strategy_and_host
    (outputDir : String) (u : ParsedUrl) (base : Option ParsedUrl) (host : String) :
    computeOutputPath outputDir u base = outputDir ++ "/" ++ urlToFilename u base ∧
    computeOutputPath outputDir ⟨u.scheme, host, u.path, u.query⟩ base =
      computeOutputPath outputDir u base := by
  exact ⟨rfl, rfl⟩

/-! ## C6 - flush atomicity -/

/-- **C6 counterexample**.  With both files dirty, `flush` performs two direct
in-place writes and no rename: the write-temp-then-rename pattern the claim
describes does not hold for `manifest.json` (the target path itself is
opened for writing), and mid-write the file observably holds a strict prefix
of the new document (here `MAN` out of `MANIFEST`). -/
theorem C6_counterexample :
    flushOps true true "MANIFEST" "STATE" =
      [FsOp.write "manifest.json" "MANIFEST", FsOp.write "state.json" "STATE"] ∧
    ¬ atomicReplace (flushOps true true "MANIFEST" "STATE") "manifest.json" ∧
    inPlaceWriteStage "MANIFEST" 3 = "MAN" ∧ "MAN" ≠ "MANIFEST" := by
  refine ⟨rfl, ?_, rfl, by decide⟩
  intro h
  exact h.2 "MANIFEST" (by simp [flushOps, saveManifestOps, saveStateOps])

/-- **C6 amended**.  `flush()` persists each dirty file with a single direct
in-place write to its final path (`open(file, "w")` then `json.dump`); no
temporary file and no rename are involved, so a failure mid-write can leave a
truncated document, and only the non-dirty file is untouched. -/
theorem C6_flush_writes_in_place (manifestJson stateJson : String)
    (manifestDirty stateDirty : Bool) :
    flushOps true true manifestJson stateJson =
      [FsOp.write "manifest.json" manifestJson,
       FsOp.write "state.json" stateJson] ∧
    flushOps false stateDirty manifestJson stateJson =
      saveStateOps stateDirty stateJson ∧
    (flushOps manifestDirty stateDirty manifestJson stateJson).all isWriteOp = true := by
  refine ⟨rfl, rfl, ?_⟩
  cases manifestDirty <;> cases stateDirty <;> rfl

/-! ## C7 - `has_changed` decision procedure -/

/-- **C7** (confirmed).  `has_changed` computes exactly the decision
procedure the specification describes: unknown URLs are changed; otherwise,
in priority order, a supplied (nonempty) ETag is compared against a cached
ETag, else a supplied Last-Modified against a cached one, else the SHA-256
of supplied content against a cached checksum, else the URL counts as
changed. -/
theorem C7_has_changed_priority_order (sha : String → String)
    (manifest : List (String × ManifestEntry)) (url : String)
    (content etag lastModified : Option String) :
    hasChanged sha manifest url content etag lastModified =
      hasChangedSpec sha manifest url content etag lastModified := by
  unfold hasChanged hasChangedSpec
  cases manifest.lookup url with
  | none => rfl
  | some cached =>
    obtain ⟨chk, fp, fa, sz, cet, clm⟩ := cached
    rcases etag with _ | e <;> rcases cet with _ | ce <;>
      rcases lastModified with _ | lm <;> rcases clm with _ | cl <;>
      rcases content with _ | c <;> rcases chk with _ | ck <;>
      simp only [truthy, hasChangedSpec.hasChangedRest,
        hasChangedSpec.hasChangedContent, Option.isSome_none, Option.isSome_some,
        Bool.and_false, Bool.and_true, Bool.false_and, Bool.true_and,
        Option.getD_some, Option.getD_none,
        bne_iff_ne, ne_eq] <;>
      first
        | rfl
        | (by_cases he : e = "" <;> simp [he] <;>
            first
              | rfl
              | (by_cases hl : lm = "" <;> simp [hl] <;>
                  first
                    | rfl
                    | (by_cases hc : c = "" <;> simp [hc]))
              | (by_cases hc : c = "" <;> simp [hc]))
        | (by_cases hl : lm = "" <;> simp [hl] <;>
            first
              | rfl
              | (by_cases hc : c = "" <;> simp [hc]))
        | (by_cases hc : c = "" <;> simp [hc])

/-! ## C9 - streaming-dedup first-writer invariant -/

/-- Association-list lookup distributes over append. -/
theorem lookup_append_cases {α β : Type} [BEq α] (l₁ l₂ : List (α × β)) (k : α) :
    (l₁ ++ l₂).lookup k =
      match l₁.lookup k with
      | some v => some v
      | none => l₂.lookup k := by
  induction l₁ with
  | nil => simp [List.lookup]
  | cons p rest ih =>
    obtain ⟨k', v'⟩ := p
    by_cases h : k == k' <;> simp [List.lookup, h, ih]

/-- A hash registered in the dedup map survives any later call. -/
theorem dedupStep_preserves_lookup (hash : String → String) (st : DedupState)
    (c : String × String) (H u : String) (hl : st.seen.lookup H = some u) :
    (dedupStep hash st c).seen.lookup H = some u := by
  unfold dedupStep checkAndRegister
  cases hreg : st.seen.lookup (hash c.2) with
  | some first => simp only [hreg]; exact hl
  | none =>
    simp only [hreg, lookup_append_cases, hl]

/-- A hash absent from the dedup map stays absent across calls whose content
hashes differently. -/
theorem dedupStep_preserves_none (hash : String → String) (st : DedupState)
    (c : String × String) (H : String) (hl : st.seen.lookup H = none)
    (hne : hash c.2 ≠ H) :
    (dedupStep hash st c).seen.lookup H = none := by
  unfold dedupStep checkAndRegister
  cases hreg : st.seen.lookup (hash c.2) with
  | some first => simp only [hreg]; exact hl
  | none =>
    have hb : (H == hash c.2) = false := by
      simp only [beq_eq_false_iff_ne, ne_eq]
      exact fun h => hne h.symm
    simp only [hreg, lookup_append_cases, hl, List.lookup, hb]

/-- `dedupRun` produces one result per call. -/
theorem dedupRun_length (hash : String → String) (st : DedupState)
    (calls : List (String × String)) :
    (dedupRun hash st calls).length = calls.length := by
  induction calls generalizing st with
  | nil => rfl
  | cons c rest ih => simp [dedupRun, ih]

/-- `dedupRun` over an appended call list splits at the intermediate state. -/
theorem dedupRun_append (hash : String → String) (st : DedupState)
    (l₁ l₂ : List (String × String)) :
    dedupRun hash st (l₁ ++ l₂) =
      dedupRun hash st l₁ ++ dedupRun hash (l₁.foldl (dedupStep hash) st) l₂ := by
  induction l₁ generalizing st with
  | nil => rfl
  | cons c rest ih =>
    simp only [List.cons_append, dedupRun, List.foldl_cons]
    rw [List.append_eq, ih]
    rfl

/-- Folding calls that all hash away from `H` keeps `H` unregistered. -/
theorem dedup_foldl_preserves_none (hash : String → String) (H : String)
    (l : List (String × String)) (st : DedupState)
    (hl : st.seen.lookup H = none) (hall : ∀ c ∈ l, hash c.2 ≠ H) :
    ((l.foldl (dedupStep hash) st).seen.lookup H) = none := by
  induction l generalizing st with
  | nil => exact hl
  | cons c rest ih =>
    simp only [List.foldl_cons]
    exact ih (dedupStep hash st c)
      (dedupStep_preserves_none hash st c H hl (hall c (by simp)))
      (fun d hd => hall d (by simp [hd]))

/-- Once `H` maps to `u`, every later call whose content hashes to `H`
answers `(false, some u)` (stated positionally inside the remaining call
list). -/
theorem dedupRun_registered (hash : String → String) (H u : String)
    (mid rest : List (String × String)) (c : String × String)
    (st : DedupState) (hl : st.seen.lookup H = some u) (hc : hash c.2 = H) :
    (dedupRun hash st (mid ++ c :: rest)).get? mid.length = some (false, some u) := by
  induction mid generalizing st with
  | nil =>
    simp only [List.nil_append, dedupRun, checkAndRegister, hc, hl]
    rfl
  | cons d mid' ih =>
    have hpres := dedupStep_preserves_lookup hash st d H u hl
    simp only [List.cons_append, dedupRun, List.length_cons, List.get?_cons_succ]
    exact ih (dedupStep hash st d) hpres

/-- **C9** (confirmed).  In any run, write the call sequence as
`pre ++ c0 :: post` where no call in `pre` shares `c0`'s content hash: the
call `c0` - the first whose content hashes to that value - answers
`(should_save = true, duplicate_of = none)`, and every later call whose
content hashes to the same value (at position `pre.length + 1 + mid.length`
for any split `post = mid ++ c1 :: rest2`) answers
`(should_save = false, duplicate_of = c0's URL)`, regardless of what other
calls are interleaved. -/
theorem C9_dedup_first_writer_wins (hash : String → String)
    (pre mid rest2 : List (String × String)) (c0 c1 : String × String)
    (hpre : ∀ c ∈ pre, hash c.2 ≠ hash c0.2) (hc1 : hash c1.2 = hash c0.2) :
    (dedupRun hash dedupInit (pre ++ c0 :: (mid ++ c1 :: rest2))).get? pre.length =
      some (true, none) ∧
    (dedupRun hash dedupInit (pre ++ c0 :: (mid ++ c1 :: rest2))).get?
        (pre.length + 1 + mid.length) = some (false, some c0.1) := by
  have hinit : (dedupInit.seen.lookup (hash c0.2)) = none := rfl
  have hst : ((pre.foldl (dedupStep hash) dedupInit).seen.lookup (hash c0.2)) = none :=
    dedup_foldl_preserves_none hash (hash c0.2) pre dedupInit hinit hpre
  set st1 := pre.foldl (dedupStep hash) dedupInit with hst1
  have hsplit := dedupRun_append hash dedupInit pre (c0 :: (mid ++ c1 :: rest2))
  have hlen := dedupRun_length hash dedupInit pre
  constructor
  · rw [hsplit]
    rw [List.get?_append_right (le_of_eq hlen)]
    rw [hlen, Nat.sub_self]
    simp only [dedupRun, checkAndRegister, hst]
    rfl
  · rw [hsplit]
    rw [List.get?_append_right (by rw [hlen]; omega)]
    rw [hlen]
    have harith : pre.length + 1 + mid.length - pre.length = mid.length + 1 := by omega
    rw [harith]
    have hreg : ((dedupStep hash st1 c0).seen.lookup (hash c0.2)) = some c0.1 := by
      simp only [dedupStep, checkAndRegister, hst, lookup_append_cases,
        List.lookup, beq_self_eq_true]
    have hcons : dedupRun hash st1 (c0 :: (mid ++ c1 :: rest2)) =
        (checkAndRegister hash st1 c0.1 c0.2).1 ::
          dedupRun hash (dedupStep hash st1 c0) (mid ++ c1 :: rest2) := rfl
    rw [hcons, List.get?_cons_succ]
    exact dedupRun_registered hash (hash c0.2) c0.1 mid rest2 c1
      (dedupStep hash st1 c0) hreg hc1

/-- **C9 witness**: three calls where the first and third share a content
hash; the first returns `(true, none)` and the third `(false, some "u1")`. -/
theorem C9_dedup_first_writer_wins_witness :
    (∀ c ∈ ([] : List (String × String)), (fun s => s) c.2 ≠ "A") ∧
    (dedupRun (fun s => s) dedupInit
        [("u1", "A"), ("u2", "B"), ("u3", "A")]).get? 0 = some (true, none) ∧
    (dedupRun (fun s => s) dedupInit
        [("u1", "A"), ("u2", "B"), ("u3", "A")]).get? 2 = some (false, some "u1") := by
  have h := C9_dedup_first_writer_wins (fun s => s) [] [("u2", "B")] []
    ("u1", "A") ("u3", "A") (by intro c hc; cases hc) rfl
  exact ⟨(by intro c hc; cases hc), h.1, h.2⟩

/-! ## C8 / C10 - HTTP retry loop -/

/-- The retry loop performs at most one try per unit of fuel. -/
theorem getGo_tries_le (out : Nat → Outcome) (maxRetries : Nat) (base : ℚ)
    (jitter : Nat → ℚ) (maxSize : Nat) :
    ∀ fuel attempt,
      (getGo out maxRetries base jitter maxSize attempt fuel).tries ≤ fuel := by
  intro fuel
  induction fuel with
  | zero => intro attempt; simp [getGo]
  | succ f ih =>
    intro attempt
    cases hout : out attempt with
    | fatalExc => simp only [getGo, hout]; omega
    | retryableExc =>
      simp only [getGo, hout]
      split
      · exact Nat.succ_le_succ (ih (attempt + 1))
      · simp only; omega
    | resp status size =>
      simp only [getGo, hout]
      split
      · split
        · exact Nat.succ_le_succ (ih (attempt + 1))
        · simp only; omega
      · split <;> (simp only; omega)

/-- With fuel available, the loop performs at least one try. -/
theorem getGo_tries_pos (out : Nat → Outcome) (maxRetries : Nat) (base : ℚ)
    (jitter : Nat → ℚ) (maxSize : Nat) (fuel attempt : Nat) :
    1 ≤ (getGo out maxRetries base jitter maxSize attempt (fuel + 1)).tries := by
  cases hout : out attempt with
  | fatalExc => simp only [getGo, hout]; omega
  | retryableExc =>
    simp only [getGo, hout]
    split <;> (simp only; omega)
  | resp status size =>
    simp only [getGo, hout]
    split
    · split <;> (simp only; omega)
    · split <;> (simp only; omega)

/-- The delays slept between tries are exactly
`base * 2 ^ attempt + jitter(attempt)` for the consecutive attempt
indices. -/
theorem getGo_waits (out : Nat → Outcome) (maxRetries : Nat) (base : ℚ)
    (jitter : Nat → ℚ) (maxSize : Nat) :
    ∀ fuel attempt, maxRetries < attempt + fuel →
      (getGo out maxRetries base jitter maxSize attempt fuel).waits =
        (List.range ((getGo out maxRetries base jitter maxSize attempt fuel).tries - 1)).map
          (fun i => retryDelay base jitter (attempt + i)) := by
  intro fuel
  induction fuel with
  | zero => intro attempt _; simp [getGo]
  | succ f ih =>
    intro attempt hinv
    have hstep : ∀ (rest : GetTrace),
        rest = getGo out maxRetries base jitter maxSize (attempt + 1) f →
        attempt < maxRetries →
        (retryDelay base jitter attempt :: rest.waits) =
          (List.range (rest.tries + 1 - 1)).map
            (fun i => retryDelay base jitter (attempt + i)) := by
      intro rest hrest hlt
      have hf : 1 ≤ f := by omega
      obtain ⟨f', rfl⟩ : ∃ f', f = f' + 1 := ⟨f - 1, by omega⟩
      have hpos : 1 ≤ rest.tries := by
        rw [hrest]; exact getGo_tries_pos out maxRetries base jitter maxSize f' (attempt + 1)
      have hwaits : rest.waits =
          (List.range (rest.tries - 1)).map
            (fun i => retryDelay base jitter (attempt + 1 + i)) := by
        rw [hrest]
        exact ih (attempt + 1) (by omega)
      obtain ⟨t', ht'⟩ : ∃ t', rest.tries = t' + 1 := ⟨rest.tries - 1, by omega⟩
      rw [hwaits, ht']
      simp only [Nat.add_sub_cancel, List.range_succ_eq_map, List.map_cons, List.map_map]
      congr 1
      apply List.map_congr_left
      intro i _
      simp only [Function.comp_apply, Nat.succ_eq_add_one]
      congr 1
      omega
    cases hout : out attempt with
    | fatalExc => simp [getGo, hout]
    | retryableExc =>
      simp only [getGo, hout]
      split
      · exact hstep _ rfl (by assumption)
      · simp
    | resp status size =>
      simp only [getGo, hout]
      split
      · split
        · exact hstep _ rfl (by assumption)
        · simp
      · split <;> simp

/-- A try is followed by another try only when its outcome was retryable: a
connection-level exception or a status in `{429, 500, 502, 503, 504}`. -/
theorem getGo_retries_only_on_transient (out : Nat → Outcome) (maxRetries : Nat)
    (base : ℚ) (jitter : Nat → ℚ) (maxSize : Nat) :
    ∀ fuel attempt k,
      k + 1 < (getGo out maxRetries base jitter maxSize attempt fuel).tries →
      retriedOutcome (out (attempt + k)) := by
  intro fuel
  induction fuel with
  | zero => intro attempt k h; simp [getGo] at h
  | succ f ih =>
    intro attempt k h
    cases hout : out attempt with
    | fatalExc => simp only [getGo, hout] at h; omega
    | retryableExc =>
      simp only [getGo, hout] at h
      by_cases hlt : attempt < maxRetries
      · rw [if_pos hlt] at h
        simp only at h
        cases k with
        | zero => simp [retriedOutcome, hout]
        | succ k' =>
          have hk' : k' + 1 < (getGo out maxRetries base jitter maxSize (attempt + 1) f).tries := by
            omega
          have := ih (attempt + 1) k' hk'
          have harith : attempt + 1 + k' = attempt + (k' + 1) := by omega
          rw [harith] at this
          exact this
      · rw [if_neg hlt] at h; simp only at h; omega
    | resp status size =>
      simp only [getGo, hout] at h
      by_cases hret : status ∈ RETRYABLE_STATUS_CODES
      · rw [if_pos hret] at h
        by_cases hlt : attempt < maxRetries
        · rw [if_pos hlt] at h
          simp only at h
          cases k with
          | zero => simp [retriedOutcome, hout, hret]
          | succ k' =>
            have hk' : k' + 1 < (getGo out maxRetries base jitter maxSize (attempt + 1) f).tries := by
              omega
            have := ih (attempt + 1) k' hk'
            have harith : attempt + 1 + k' = attempt + (k' + 1) := by omega
            rw [harith] at this
            exact this
        · rw [if_neg hlt] at h; simp only at h; omega
      · rw [if_neg hret] at h
        split at h <;> (simp only at h; omega)

/-- Any status the loop returns with `ok` is outside the retryable set. -/
theorem getGo_ok_status_not_retryable (out : Nat → Outcome) (maxRetries : Nat)
    (base : ℚ) (jitter : Nat → ℚ) (maxSize : Nat) :
    ∀ fuel attempt s,
      (getGo out maxRetries base jitter maxSize attempt fuel).result = Except.ok s →
      s ∉ RETRYABLE_STATUS_CODES := by
  intro fuel
  induction fuel with
  | zero => intro attempt s h; simp [getGo] at h
  | succ f ih =>
    intro attempt s h
    cases hout : out attempt with
    | fatalExc =>
      simp only [getGo, hout] at h
      exact Except.noConfusion h
    | retryableExc =>
      simp only [getGo, hout] at h
      split at h
      · exact ih (attempt + 1) s h
      · simp at h
    | resp status size =>
      simp only [getGo, hout] at h
      by_cases hret : status ∈ RETRYABLE_STATUS_CODES
      · rw [if_pos hret] at h
        split at h
        · exact ih (attempt + 1) s h
        · simp at h
      · rw [if_neg hret] at h
        split at h
        · simp at h
        · simp only [Except.ok.injEq] at h
          subst h
          exact hret

/-- If the server answers a retryable status on every remaining attempt, the
loop ends by raising `raise_for_status` on the last attempt. -/
theorem getGo_all_retryable_raises (out : Nat → Outcome) (maxRetries : Nat)
    (base : ℚ) (jitter : Nat → ℚ) (maxSize : Nat) :
    ∀ fuel attempt, attempt + fuel = maxRetries + 1 → attempt ≤ maxRetries →
      (∀ i, attempt ≤ i → i ≤ maxRetries →
        ∃ s sz, out i = Outcome.resp s sz ∧ s ∈ RETRYABLE_STATUS_CODES) →
      ∃ s, s ∈ RETRYABLE_STATUS_CODES ∧
        (getGo out maxRetries base jitter maxSize attempt fuel).result =
          Except.error (GetError.statusError s) := by
  intro fuel
  induction fuel with
  | zero => intro attempt hinv hle _; omega
  | succ f ih =>
    intro attempt hinv hle hall
    obtain ⟨s, sz, hout, hs⟩ := hall attempt le_rfl hle
    simp only [getGo, hout, if_pos hs]
    by_cases hlt : attempt < maxRetries
    · rw [if_pos hlt]
      have := ih (attempt + 1) (by omega) (by omega)
        (fun i hi₁ hi₂ => hall i (by omega) hi₂)
      obtain ⟨s', hs', hres⟩ := this
      exact ⟨s', hs', hres⟩
    · rw [if_neg hlt]
      exact ⟨s, hs, rfl⟩

/-- **C8** (confirmed).  `get` performs at most `max_retries + 1` tries (so 4
in total with the default `max_retries = 3`); the delays slept between tries
are exactly `base * 2 ^ attempt + uniform(0, 1)` for consecutive attempt
indices; a try is followed by another try only when its outcome was a
connection error / timeout or a status in `{429, 500, 502, 503, 504}`; and a
first response with a status outside that set (such as 404) within the size
limit is returned as-is after a single try, raising nothing. -/
theorem C8_get_retry_policy (out : Nat → Outcome) (maxRetries : Nat) (base : ℚ)
    (jitter : Nat → ℚ) (maxSize : Nat) :
    (get out maxRetries base jitter maxSize).tries ≤ maxRetries + 1 ∧
    (get out maxRetries base jitter maxSize).waits =
      (List.range ((get out maxRetries base jitter maxSize).tries - 1)).map
        (retryDelay base jitter) ∧
    (∀ k, k + 1 < (get out maxRetries base jitter maxSize).tries →
      retriedOutcome (out k)) ∧
    (∀ s sz, out 0 = Outcome.resp s sz → s ∉ RETRYABLE_STATUS_CODES →
      sz ≤ maxSize →
      (get out maxRetries base jitter maxSize).result = Except.ok s ∧
        (get out maxRetries base jitter maxSize).tries = 1) := by
  refine ⟨getGo_tries_le out maxRetries base jitter maxSize (maxRetries + 1) 0, ?_, ?_, ?_⟩
  · have h := getGo_waits out maxRetries base jitter maxSize (maxRetries + 1) 0 (by omega)
    rw [get, h]
    apply List.map_congr_left
    intro i _
    rw [Nat.zero_add]
  · intro k hk
    have h := getGo_retries_only_on_transient out maxRetries base jitter maxSize
      (maxRetries + 1) 0 k hk
    simpa using h
  · intro s sz hout hs hsz
    have hnl : ¬ maxSize < sz := Nat.not_lt.mpr hsz
    constructor <;>
      simp [get, getGo, hout, if_neg hs, if_neg hnl]

/-- **C8 witness**: a server answering 404 on the first attempt; with
`max_retries = 3` the call returns the 404 response as-is after one try. -/
theorem C8_get_retry_policy_witness :
    serverNotFound 0 = Outcome.resp 404 10 ∧
    404 ∉ RETRYABLE_STATUS_CODES ∧ 10 ≤ 50 ∧
    (get serverNotFound 3 1 (fun _ => 0) 50).result = Except.ok 404 ∧
    (get serverNotFound 3 1 (fun _ => 0) 50).tries = 1 := by
  have h := (C8_get_retry_policy serverNotFound 3 1 (fun _ => 0) 50).2.2.2 404 10
    rfl (by decide) (by decide)
  exact ⟨rfl, by decide, by decide, h.1, h.2⟩

/-- **C10** (confirmed).  `get` never returns a response whose status is in
the retryable set: every `ok` status is outside `{429, 500, 502, 503, 504}`,
and when the server answers a retryable status on every attempt the call
raises (`raise_for_status` on the final attempt) instead of returning, so
callers such as the fetch pipeline step only ever observe non-retryable
statuses as returned responses. -/
theorem C10_get_never_returns_retryable (out : Nat → Outcome) (maxRetries : Nat)
    (base : ℚ) (jitter : Nat → ℚ) (maxSize : Nat) :
    (∀ s, (get out maxRetries base jitter maxSize).result = Except.ok s →
      s ∉ RETRYABLE_STATUS_CODES) ∧
    ((∀ i, i ≤ maxRetries →
        ∃ s sz, out i = Outcome.resp s sz ∧ s ∈ RETRYABLE_STATUS_CODES) →
      ∃ s, s ∈ RETRYABLE_STATUS_CODES ∧
        (get out maxRetries base jitter maxSize).result =
          Except.error (GetError.statusError s)) := by
  constructor
  · intro s h
    exact getGo_ok_status_not_retryable out maxRetries base jitter maxSize
      (maxRetries + 1) 0 s h
  · intro hall
    exact getGo_all_retryable_raises out maxRetries base jitter maxSize
      (maxRetries + 1) 0 (by omega) (by omega)
      (fun i _ hi => hall i hi)

/-- **C10 witness**: a server answering 503 on every attempt; with
`max_retries = 3` the call raises a status error instead of returning. -/
theorem C10_get_never_returns_retryable_witness :
    (get serverAlwaysBusy 3 1 (fun _ => 0) 50).result =
      Except.error (GetError.statusError 503) ∧
    503 ∈ RETRYABLE_STATUS_CODES := by
  have h := (C10_get_never_returns_retryable serverAlwaysBusy 3 1 (fun _ => 0) 50).2
    (fun i _ => ⟨503, 10, rfl, by decide⟩)
  obtain ⟨s, hs, hres⟩ := h
  have hres503 : (get serverAlwaysBusy 3 1 (fun _ => 0) 50).result =
      Except.error (GetError.statusError 503) := by
    have : (get serverAlwaysBusy 3 1 (fun _ => 0) 50).result =
        Except.error (GetError.statusError 503) := rfl
    exact this
  exact ⟨hres503, by decide⟩

/-! ## C3 / C5 - discovery -/

/-- Every URL the sitemap page loop yields passed the URL validator. -/
theorem sitemapPageLoop_validator (w : DiscoveryWorld) (maxUrls : Option Nat) :
    ∀ l count seen u, u ∈ (sitemapPageLoop w maxUrls l count seen).1 →
      w.validator u = true := by
  intro l
  induction l with
  | nil => intro count seen u hu; simp [sitemapPageLoop] at hu
  | cons url rest ih =>
    intro count seen u hu
    simp only [sitemapPageLoop] at hu
    split at hu
    · simp at hu
    · split at hu
      · exact ih _ _ _ hu
      · rename_i hv
        have hvt : w.validator url = true := by
          revert hv; cases w.validator url <;> simp
        split at hu
        · exact ih _ _ _ hu
        · split at hu
          · exact ih _ _ _ hu
          · simp only [List.mem_cons] at hu
            cases hu with
            | inl he => rw [he]; exact hvt
            | inr hm => exact ih _ _ _ hm

/-- The nested-sitemap loop preserves any property the child's yields have. -/
theorem sitemapNestedLoop_pred
    (child : String → Option Nat → List String → List String × List String)
    (P : String → Prop)
    (hchild : ∀ nu r s u, u ∈ (child nu r s).1 → P u) :
    ∀ l remaining seen u, u ∈ (sitemapNestedLoop child l remaining seen).1 → P u := by
  intro l
  induction l with
  | nil => intro remaining seen u hu; simp [sitemapNestedLoop] at hu
  | cons nestedUrl rest ih =>
    intro remaining seen u hu
    have hyield : ∀ v, v ∈ (remaining.elim (child nestedUrl remaining seen).1
        (fun r => (child nestedUrl remaining seen).1.take r)) → P v := by
      intro v hv
      cases remaining with
      | none => exact hchild _ _ _ v (by simpa using hv)
      | some r => exact hchild _ _ _ v (List.take_subset _ _ (by simpa using hv))
    simp only [sitemapNestedLoop] at hu
    split at hu
    · simp at hu
    · split at hu
      · exact hyield u hu
      · simp only [List.mem_append] at hu
        cases hu with
        | inl hy => exact hyield u hy
        | inr hm => exact ih _ _ _ hm

/-- Every URL `_discover_from_sitemap` yields passed the URL validator. -/
theorem discoverFromSitemap_validator (w : DiscoveryWorld) :
    ∀ gas sitemapUrl maxUrls seen u,
      u ∈ (discoverFromSitemap w gas sitemapUrl maxUrls seen).1 →
      w.validator u = true := by
  intro gas
  induction gas with
  | zero => intro sitemapUrl maxUrls seen u hu; simp [discoverFromSitemap] at hu
  | succ g ih =>
    intro sitemapUrl maxUrls seen u hu
    simp only [discoverFromSitemap] at hu
    cases hf : fetchSitemap w sitemapUrl with
    | none => rw [hf] at hu; simp at hu
    | some pair =>
      rw [hf] at hu
      obtain ⟨pageUrls, nestedUrls⟩ := pair
      simp only [List.mem_append] at hu
      cases hu with
      | inl hp => exact sitemapPageLoop_validator w maxUrls pageUrls 0 seen u hp
      | inr hn =>
        exact sitemapNestedLoop_pred (discoverFromSitemap w g)
          (fun v => w.validator v = true)
          (fun nu r s v hv => ih nu r s v hv) nestedUrls _ _ u hn

/-- Every URL the sitemap guess loop yields passed the URL validator. -/
theorem sitemapGuessLoop_validator (w : DiscoveryWorld) (maxUrls : Option Nat) :
    ∀ gs count seen u, u ∈ sitemapGuessLoop w maxUrls gs count seen →
      w.validator u = true := by
  intro gs
  induction gs with
  | nil => intro count seen u hu; simp [sitemapGuessLoop] at hu
  | cons g rest ih =>
    intro count seen u hu
    simp only [sitemapGuessLoop] at hu
    have hyield : ∀ v, v ∈ (maxUrls.elim
        (discoverFromSitemap w (MAX_SITEMAP_DEPTH + 1) g
          (maxUrls.map fun m => m - count) seen).1
        (fun m => ((discoverFromSitemap w (MAX_SITEMAP_DEPTH + 1) g
          (maxUrls.map fun m => m - count) seen).1.take (m - count)))) →
        w.validator v = true := by
      intro v hv
      cases maxUrls with
      | none => exact discoverFromSitemap_validator w _ g _ seen v (by simpa using hv)
      | some m =>
        exact discoverFromSitemap_validator w _ g _ seen v
          (List.take_subset _ _ (by simpa using hv))
    split at hu
    · exact hyield u hu
    · simp only [List.mem_append] at hu
      cases hu with
      | inl hy => exact hyield u hy
      | inr hm => exact ih _ _ u hm

/-- Every URL `SitemapDiscoverer.discover` yields passed the URL validator. -/
theorem sitemapDiscover_validator (w : DiscoveryWorld) (seed seedSchemeHost : String)
    (maxUrls : Option Nat) (u : String)
    (hu : u ∈ sitemapDiscover w seed seedSchemeHost maxUrls) :
    w.validator u = true := by
  unfold sitemapDiscover at hu
  split at hu
  · exact discoverFromSitemap_validator w _ seed maxUrls [] u hu
  · exact sitemapGuessLoop_validator w maxUrls _ 0 [] u hu

/-- Every URL the crawler's link loop yields passed `_should_crawl`. -/
theorem crawlLinkLoop_shouldCrawl (w : DiscoveryWorld) (depth maxDepth : Nat)
    (maxUrls : Option Nat) :
    ∀ links seen count qAdd u,
      u ∈ (crawlLinkLoop w depth maxDepth maxUrls links seen count qAdd).1 →
      shouldCrawl w u = true := by
  intro links
  induction links with
  | nil => intro seen count qAdd u hu; simp [crawlLinkLoop] at hu
  | cons link rest ih =>
    intro seen count qAdd u hu
    simp only [crawlLinkLoop] at hu
    split at hu
    · exact ih _ _ _ u hu
    · split at hu
      · exact ih _ _ _ u hu
      · rename_i hsc
        have hsct : shouldCrawl w link = true := by
          revert hsc; cases shouldCrawl w link <;> simp
        split at hu
        · simp only [List.mem_singleton] at hu
          rw [hu]; exact hsct
        · simp only [List.mem_cons] at hu
          cases hu with
          | inl he => rw [he]; exact hsct
          | inr hm => exact ih _ _ _ u hm

/-- Every URL the crawler's BFS loop yields passed `_should_crawl`. -/
theorem crawlLoop_shouldCrawl (w : DiscoveryWorld) (maxDepth : Nat)
    (maxUrls : Option Nat) :
    ∀ fuel queue seen count u,
      u ∈ crawlLoop w maxDepth maxUrls fuel queue seen count →
      shouldCrawl w u = true := by
  intro fuel
  induction fuel with
  | zero => intro queue seen count u hu; simp [crawlLoop] at hu
  | succ f ih =>
    intro queue seen count u hu
    cases queue with
    | nil => simp [crawlLoop] at hu
    | cons front rest =>
      obtain ⟨url, depth⟩ := front
      simp only [crawlLoop] at hu
      split at hu
      · exact ih _ _ _ u hu
      · split at hu
        · exact crawlLinkLoop_shouldCrawl w depth maxDepth maxUrls _ _ _ _ u hu
        · simp only [List.mem_append] at hu
          cases hu with
          | inl hy => exact crawlLinkLoop_shouldCrawl w depth maxDepth maxUrls _ _ _ _ u hy
          | inr hm => exact ih _ _ _ u hm

/-- Every URL `LinkCrawler.discover` yields passed `_should_crawl` - that is,
the URL validator, the robots gate, the domain filter and the pattern
filter. -/
theorem crawlerDiscover_shouldCrawl (w : DiscoveryWorld) (seed : String)
    (maxUrls : Option Nat) (maxDepth fuel : Nat) (u : String)
    (hu : u ∈ crawlerDiscover w seed maxUrls maxDepth fuel) :
    shouldCrawl w u = true := by
  unfold crawlerDiscover at hu
  split at hu
  · rename_i hsc
    split at hu
    · simp only [List.mem_singleton] at hu
      rw [hu]; exact hsc
    · simp only [List.mem_cons] at hu
      cases hu with
      | inl he => rw [he]; exact hsc
      | inr hm => exact crawlLoop_shouldCrawl w maxDepth maxUrls fuel _ _ _ u hm
  · exact crawlLoop_shouldCrawl w maxDepth maxUrls fuel _ _ _ u hu

/-- The composite phases only relay URLs of their source sequence. -/
theorem compositePhase_subset (w : DiscoveryWorld) (maxUrls : Option Nat) :
    ∀ source seen count u,
      u ∈ (compositePhase w maxUrls source seen count).1 → u ∈ source := by
  intro source
  induction source with
  | nil => intro seen count u hu; simp [compositePhase] at hu
  | cons url rest ih =>
    intro seen count u hu
    simp only [compositePhase] at hu
    split at hu
    · exact List.mem_cons_of_mem url (ih _ _ u hu)
    · split at hu
      · simp only [List.mem_singleton] at hu
        simp [hu]
      · simp only [List.mem_cons] at hu
        cases hu with
        | inl he => simp [he]
        | inr hm => exact List.mem_cons_of_mem url (ih _ _ u hm)

/-- **C3 counterexample**.  A sitemap that lists `https://example.com/b`,
which the robots gate disallows: the composite discoverer yields it anyway
(the sitemap phase filters through the URL validator and the pattern filter
but never consults robots). -/
theorem C3_counterexample :
    compositeDiscover robotsWorld "https://example.com" "https://example.com"
        none 5 10 true =
      ["https://example.com/a1", "https://example.com/a2",
       "https://example.com/a3", "https://example.com/a4",
       "https://example.com/b"] ∧
    robotsWorld.robots "https://example.com/b" = false := by
  exact ⟨rfl, by decide⟩

/-- **C3 amended**.  Every URL the composite discoverer yields passes the URL
validator; URLs from the crawler fallback phase additionally pass the robots
gate (`_should_crawl`); sitemap-phase URLs are not robots-checked at
discovery time. -/
theorem C3_composite_urls_validated (w : DiscoveryWorld)
    (seed seedSchemeHost : String) (maxUrls : Option Nat)
    (crawlMaxDepth fuel : Nat) (hasCrawler : Bool) :
    (∀ u, u ∈ compositeDiscover w seed seedSchemeHost maxUrls
        crawlMaxDepth fuel hasCrawler → w.validator u = true) ∧
    (∀ u, u ∈ crawlerDiscover w seed maxUrls crawlMaxDepth fuel →
      w.validator u = true ∧ w.robots u = true) := by
  constructor
  · intro u hu
    simp only [compositeDiscover] at hu
    have hsm : ∀ v, v ∈ (compositePhase w maxUrls
        (sitemapDiscover w seed seedSchemeHost maxUrls) [] 0).1 →
        w.validator v = true := by
      intro v hv
      exact sitemapDiscover_validator w seed seedSchemeHost maxUrls v
        (compositePhase_subset w maxUrls _ _ _ v hv)
    split at hu
    · exact hsm u hu
    · split at hu
      · exact hsm u hu
      · split at hu
        · exact hsm u hu
        · simp only [List.mem_append] at hu
          cases hu with
          | inl h1 => exact hsm u h1
          | inr h2 =>
            have hcr := compositePhase_subset w maxUrls _ _ _ u h2
            have hsc := crawlerDiscover_shouldCrawl w seed _ crawlMaxDepth fuel u hcr
            simp only [shouldCrawl, Bool.and_eq_true] at hsc
            exact hsc.1.1.1
  · intro u hu
    have hsc := crawlerDiscover_shouldCrawl w seed maxUrls crawlMaxDepth fuel u hu
    simp only [shouldCrawl, Bool.and_eq_true] at hsc
    exact ⟨hsc.1.1.1, hsc.1.1.2⟩

/-- **C3 witness**: in the robots counterexample world, the yielded URL
`/a1` indeed passes the validator, and the crawler phase run from the seed
yields only robots-allowed URLs. -/
theorem C3_composite_urls_validated_witness :
    ("https://example.com/a1" ∈ compositeDiscover robotsWorld
        "https://example.com" "https://example.com" none 5 10 true) ∧
    robotsWorld.validator "https://example.com/a1" = true ∧
    ("https://example.com" ∈ crawlerDiscover robotsWorld
        "https://example.com" none 5 10) ∧
    robotsWorld.validator "https://example.com" = true ∧
    robotsWorld.robots "https://example.com" = true := by
  have hlist : compositeDiscover robotsWorld "https://example.com"
      "https://example.com" none 5 10 true =
      ["https://example.com/a1", "https://example.com/a2",
       "https://example.com/a3", "https://example.com/a4",
       "https://example.com/b"] := rfl
  have hm1 : "https://example.com/a1" ∈ compositeDiscover robotsWorld
      "https://example.com" "https://example.com" none 5 10 true := by
    rw [hlist]; simp
  have hcrl : crawlerDiscover robotsWorld "https://example.com" none 5 10 =
      ["https://example.com"] := rfl
  have hm2 : "https://example.com" ∈ crawlerDiscover robotsWorld
      "https://example.com" none 5 10 := by
    rw [hcrl]; simp
  have h := C3_composite_urls_validated robotsWorld "https://example.com"
    "https://example.com" none 5 10 true
  have h2 := h.2 _ hm2
  exact ⟨hm1, h.1 _ hm1, hm2, h2.1, h2.2⟩

/-- With `max_urls = 0` the sitemap page loop yields nothing: the cap check
sits at the head of the loop. -/
theorem sitemapPageLoop_zero_cap (w : DiscoveryWorld) :
    ∀ l count seen, sitemapPageLoop w (some 0) l count seen = ([], count, seen) := by
  intro l count seen
  cases l with
  | nil => rfl
  | cons url rest => simp [sitemapPageLoop]

/-- With zero remaining budget the nested-sitemap loop yields nothing. -/
theorem sitemapNestedLoop_zero_cap
    (child : String → Option Nat → List String → List String × List String) :
    ∀ l seen, sitemapNestedLoop child l (some 0) seen = ([], seen) := by
  intro l seen
  cases l with
  | nil => rfl
  | cons nestedUrl rest => simp [sitemapNestedLoop]

/-- With `max_urls = 0` a sitemap descent yields nothing. -/
theorem discoverFromSitemap_zero_cap (w : DiscoveryWorld) :
    ∀ gas url seen, discoverFromSitemap w gas url (some 0) seen = ([], seen) := by
  intro gas url seen
  cases gas with
  | zero => rfl
  | succ g =>
    simp only [discoverFromSitemap]
    cases fetchSitemap w url with
    | none => rfl
    | some pair =>
      obtain ⟨pageUrls, nestedUrls⟩ := pair
      simp [sitemapPageLoop_zero_cap, sitemapNestedLoop_zero_cap]

/-- With `max_urls = 0` the sitemap guess loop yields nothing. -/
theorem sitemapGuessLoop_zero_cap (w : DiscoveryWorld) :
    ∀ gs count seen, sitemapGuessLoop w (some 0) gs count seen = [] := by
  intro gs count seen
  cases gs with
  | nil => rfl
  | cons g rest => simp [sitemapGuessLoop]

/-- With `max_urls = 0` sitemap discovery yields nothing, for every seed and
environment. -/
theorem sitemapDiscover_zero_cap (w : DiscoveryWorld) (seed seedSchemeHost : String) :
    sitemapDiscover w seed seedSchemeHost (some 0) = [] := by
  unfold sitemapDiscover
  split
  · rw [discoverFromSitemap_zero_cap]
  · exact sitemapGuessLoop_zero_cap w _ 0 []

/-- With `max_urls = 0` the crawler still yields the seed whenever
`_should_crawl` accepts it: the cap is only checked after the seed has been
yielded. -/
theorem crawlerDiscover_zero_cap (w : DiscoveryWorld) (seed : String)
    (maxDepth fuel : Nat) (hsc : shouldCrawl w seed = true) :
    crawlerDiscover w seed (some 0) maxDepth fuel = [seed] := by
  simp [crawlerDiscover, hsc]

/-- **C5 counterexample**.  With `max_pages = 0`, no sitemap anywhere and
every gate open, composite discovery yields the seed URL: one URL is
discovered and fetched, not zero. -/
theorem C5_counterexample :
    compositeDiscover openWorld "https://docs.example.com"
        "https://docs.example.com" (some 0) 5 10 true =
      ["https://docs.example.com"] ∧
    ¬ (compositeDiscover openWorld "https://docs.example.com"
        "https://docs.example.com" (some 0) 5 10 true).length = 0 := by
  exact ⟨rfl, by decide⟩

/-- **C5 amended**.  With `max_pages = 0`, the sitemap phase yields nothing,
but the crawler fallback yields the seed URL before the cap is checked
whenever the seed passes the validator / robots / domain / pattern gates, so
the run discovers (and fetches) exactly the seed: `urls_discovered = 1`, not
0. -/
theorem C5_zero_max_pages_yields_seed (w : DiscoveryWorld)
    (seed seedSchemeHost : String) (crawlMaxDepth fuel : Nat)
    (hsc : shouldCrawl w seed = true) :
    compositeDiscover w seed seedSchemeHost (some 0) crawlMaxDepth fuel true =
      [seed] := by
  unfold compositeDiscover
  rw [sitemapDiscover_zero_cap]
  simp only [compositePhase, Option.map_some, Nat.sub_zero, Option.map_id']
  rw [crawlerDiscover_zero_cap w seed crawlMaxDepth fuel hsc]
  simp [compositePhase, seenAdd, FALLBACK_THRESHOLD]

/-- **C5 witness**: in the open world the seed passes `_should_crawl` and a
`max_pages = 0` run discovers exactly the seed. -/
theorem C5_zero_max_pages_yields_seed_witness :
    shouldCrawl openWorld "https://docs.example.com" = true ∧
    compositeDiscover openWorld "https://docs.example.com"
        "https://docs.example.com" (some 0) 5 10 true =
      ["https://docs.example.com"] := by
  exact ⟨rfl, C5_zero_max_pages_yields_seed openWorld "https://docs.example.com"
    "https://docs.example.com" 5 10 rfl⟩

end Docpull
